import Mathlib

/-!
Shallow embedding of the playlist-synchronisation program in src/opus_sync.py.

Strings are modelled as lists of characters (`Str`).  Character-class
predicates (Python regex `\s`, `\w`, `\d`, `str.lower`) are modelled on the
ASCII range, which covers every input the specification talks about.
Instants are modelled as integers counting milliseconds (the resolution the
feed delivers and the specification's boundary tests use); a timezone-aware
Python `datetime` compares as an instant, so the cutoff comparisons below are
faithful.  The external collaborators (Spotify client, HTTP feed, `strptime`
plus the Vilnius timezone database) enter as explicit function parameters.
-/

/-- Strings of the embedded program. -/
abbrev Str := List Char

/-- Python regex `\s` (ASCII range): space, tab, newline, CR, vertical tab,
form feed. -/
def pyIsSpace (c : Char) : Bool :=
  c = ' ' || c = '\t' || c = '\n' || c = '\r' || c = '\x0b' || c = '\x0c'

/-- Drop trailing whitespace. -/
def dropTrailWs (l : Str) : Str := (l.reverse.dropWhile pyIsSpace).reverse

/-- Python `str.strip()`. -/
def pyStrip (l : Str) : Str := dropTrailWs (l.dropWhile pyIsSpace)

/-- Python regex `\w` (ASCII range): alphanumeric or underscore. -/
def isWordChar (c : Char) : Bool := c.isAlphanum || c = '_'

/-- Python `str.lower()` (ASCII range). -/
def lowerStr (l : Str) : Str := l.map Char.toLower

/-- Is the first character a word character (`false` at end of string)?
Used for the right-hand `\b` test. -/
def headIsWord : Str → Bool
  | [] => false
  | c :: _ => isWordChar c

/-- `AND_RE.sub("", ·)` where `AND_RE = re.compile(r"\band\b", re.I)`:
left-to-right non-overlapping removal of the standalone word "and"
(case-insensitive, word boundaries on both sides).  `prevW` records whether
the character preceding the scan position in the original string is a word
character (the left `\b` test); the scan restarts after each removed match,
whose last original character is the word character `d`. -/
def andSub : Bool → Str → Str
  | _, [] => []
  | prevW, c1 :: c2 :: c3 :: rest =>
    if !prevW && c1.toLower = 'a' && c2.toLower = 'n' && c3.toLower = 'd'
        && !headIsWord rest
    then andSub true rest
    else c1 :: andSub (isWordChar c1) (c2 :: c3 :: rest)
  | _, [c1, c2] => [c1, c2]
  | _, [c1] => [c1]

/-- Python `str.replace("GandG", "G&G")`: left-to-right non-overlapping. -/
def replaceGandG : Str → Str
  | 'G' :: 'a' :: 'n' :: 'd' :: 'G' :: tl => 'G' :: '&' :: 'G' :: replaceGandG tl
  | c :: tl => c :: replaceGandG tl
  | [] => []

/-- Python `pat in s` (substring containment). -/
def hasInf (pat : Str) : Str → Bool
  | [] => pat.isEmpty
  | l@(_ :: tl) => pat.isPrefixOf l || hasInf pat tl

/-- `clean_artist` from src/opus_sync.py: special-case rewrite of "GandG" to
"G&G", removal of the standalone word "and", final strip. -/
def clean_artist (a : Str) : Str :=
  let a1 := if hasInf "GandG".toList a then replaceGandG a else a
  pyStrip (andSub false a1)

/-- Modelled from the spec's words (section 4.3 step 3 / claim C8), for
comparison with the source's `clean_artist`: remove the standalone word
"and" (case-insensitive, word-boundary), leave everything else unchanged
apart from trimming.  It is `clean_artist` without the "GandG" rewrite. -/
def spec_clean_artist (a : Str) : Str := pyStrip (andSub false a)

/-- Does the string avoid the newline character?  Python regex `.` does not
match a newline, so the two capture groups of `ART_TITLE_RE` may not contain
one. -/
def noNL (l : Str) : Bool := l.all (fun c => c != '\n')

/-- Backtracking loop of `ART_TITLE_RE = ^\s*(.*?)\s*-\s*(.*?)\s*$`.
`acc` holds (reversed) the characters the lazy artist group has absorbed so
far.  At each hyphen the engine tries the split there: the artist is `acc`
with the maximal whitespace run before the hyphen stripped (that run is
matched by the greedy `\s*` before the `-`), the title is the remainder with
the whitespace matched by the greedy `\s*` after the `-` and by the final
`\s*$` stripped.  The split succeeds iff neither group needs to contain a
newline; otherwise the lazy artist group grows past this hyphen and the
search continues (any newline that made this artist fail also makes every
later artist fail, so plain continuation is faithful). -/
def artGo : Str → Str → Option (Str × Str)
  | _, [] => none
  | acc, c :: tl =>
    if c = '-' then
      let artist := dropTrailWs acc.reverse
      let title := dropTrailWs (tl.dropWhile pyIsSpace)
      if noNL artist && noNL title then some (artist, title)
      else artGo (c :: acc) tl
    else artGo (c :: acc) tl

/-- `ART_TITLE_RE.match`, returning the two capture groups.  The leading
`^\s*` greedily consumes the initial whitespace run (the lazy artist group
absorbs any smaller choice, so the greedy choice is the one reported). -/
def artTitleMatch (s : Str) : Option (Str × Str) :=
  artGo [] (s.dropWhile pyIsSpace)

/-- `YEAR_RE.sub("", ·)` where `YEAR_RE = \(\d{4}\)\s*$`: anchored at the
end, so at most one match; it removes a final parenthesised 4-digit group
together with the whitespace after it, and leaves the string unchanged when
there is no such suffix. -/
def stripYearSuffix (l : Str) : Str :=
  match l.reverse.dropWhile pyIsSpace with
  | ')' :: d1 :: d2 :: d3 :: d4 :: '(' :: rest =>
    if d1.isDigit && d2.isDigit && d3.isDigit && d4.isDigit
    then rest.reverse else l
  | _ => l

/-- The `(?:feat|ft)` alternation of `FEAT_RE`, case-insensitive, "feat"
tried first; returns the rest of the string after the consumed tag. -/
def matchTag : Str → Option Str
  | f :: e :: a :: t :: rest =>
    if f.toLower = 'f' && e.toLower = 'e' && a.toLower = 'a' && t.toLower = 't'
    then some rest
    else if f.toLower = 'f' && e.toLower = 't' then some (a :: t :: rest)
    else none
  | f :: t :: rest =>
    if f.toLower = 'f' && t.toLower = 't' then some rest else none
  | _ => none

/-- After the tag of `FEAT_RE = \((?:feat|ft)\.?\s+.*?\)\s*`: an optional
dot (consuming it can never turn a match into a failure, since the
alternative path demands whitespace where the dot stands), then at least one
whitespace character, then the lazy body up to the first `)` after the
maximal whitespace run — the body may not contain a newline, while a newline
inside the whitespace run is absorbed by the greedy `\s+` — then the closing
parenthesis and the greedy trailing `\s*`.  Returns the rest of the string
after the whole match. -/
def afterTag (l : Str) : Option Str :=
  let l1 := match l with | '.' :: r => r | _ => l
  match l1 with
  | c :: _ =>
    if pyIsSpace c then
      let r1 := l1.dropWhile pyIsSpace
      match r1.dropWhile (fun d => d != ')' && d != '\n') with
      | ')' :: r2 => some (r2.dropWhile pyIsSpace)
      | _ => none
    else none
  | [] => none

/-- Everything of `FEAT_RE` after an opening parenthesis. -/
def matchFeatAt (l : Str) : Option Str := (matchTag l).bind afterTag

/-- `FEAT_RE.sub("", ·)`: left-to-right scan removing every non-overlapping
match; the scan resumes right after each removed match.  `fuel` bounds the
number of scan steps; each step consumes at least one character, so
`featSub` hands the scanner the length of the string as fuel. -/
def featSubAux : Nat → Str → Str
  | 0, l => l
  | _ + 1, [] => []
  | fuel + 1, '(' :: tl =>
    match matchFeatAt tl with
    | some rest => featSubAux fuel rest
    | none => '(' :: featSubAux fuel tl
  | fuel + 1, c :: tl => c :: featSubAux fuel tl

/-- `FEAT_RE.sub("", ·)`. -/
def featSub (l : Str) : Str := featSubAux l.length l

/-- A value read out of the feed's JSON: a number (epoch milliseconds — the
feed sends either `int` or `float`, both carrying the instant), a string, or
anything else. -/
inductive PyVal where
  | num (ms : Int)
  | str (s : Str)
  | other
deriving DecidableEq

/-- One raw feed item, restricted to the keys `parse_records` consults:
`dt`/`time`/`timestamp` for the timestamp and `song`/`name` for the song
string; `none` models an absent key. -/
structure RawItem where
  dt : Option PyVal
  time : Option PyVal
  timestamp : Option PyVal
  song : Option Str
  name : Option Str
deriving DecidableEq

/-- Python truthiness of a feed value (`0`, `0.0` and `""` are falsy). -/
def pyTruthyV : PyVal → Bool
  | .num m => m != 0
  | .str s => !s.isEmpty
  | .other => true

/-- Python `a or b` over optional feed values (`item.get` yields `None` for
a missing key, and `or` moves on past any falsy value). -/
def pyOrV (a b : Option PyVal) : Option PyVal :=
  match a with
  | some v => if pyTruthyV v then some v else b
  | none => b

/-- Python `a or b` where the right operand is a plain string. -/
def pyOrS (a : Option Str) (b : Str) : Str :=
  match a with
  | some s => if s.isEmpty then b else s
  | none => b

/-- `CUTOFF_HOURS = 72`. -/
def CUTOFF_HOURS : Int := 72

/-- Milliseconds per hour. -/
def msPerHour : Int := 3600000

/-- The cutoff instant `datetime.now(tz=VILNIUS_TZ) - timedelta(hours=CUTOFF_HOURS)`,
as epoch milliseconds relative to the run's `now`. -/
def cutoffOf (now : Int) : Int := now - CUTOFF_HOURS * msPerHour

/-- `_parse_dt(item.get("dt") or item.get("time") or item.get("timestamp"))`.
A numeric value is epoch milliseconds (`datetime.fromtimestamp(ms/1000, tz)`
keeps the instant exactly); a string is stripped and handed to the external
`strptime`-plus-Vilnius-timezone collaborator `strpt`, abstract here because
it depends on the timezone database; anything else parses to `None`. -/
def getTs (strpt : Str → Option Int) (it : RawItem) : Option Int :=
  match pyOrV it.dt (pyOrV it.time it.timestamp) with
  | some (.num ms) => some ms
  | some (.str s) => strpt (pyStrip s)
  | _ => none

/-- `(item.get("song") or item.get("name") or "").strip()`. -/
def rawSong (it : RawItem) : Str := pyStrip (pyOrS it.song (pyOrS it.name []))

/-- The song-shaped part of one iteration of the `parse_records` loop:
drop the item when the song string is empty or `ART_TITLE_RE` does not
match, otherwise strip the trailing year marker and the "(feat. …)"
parentheticals from the title. -/
def parseSong (it : RawItem) : Option (Str × Str) :=
  let rs := rawSong it
  if rs.isEmpty then none
  else
    match artTitleMatch rs with
    | none => none
    | some (artist, title) =>
      let t1 := pyStrip (stripYearSuffix title)
      let t2 := pyStrip (featSub t1)
      some (artist, t2)

/-- One iteration of the `parse_records` collection loop: timestamp
extraction, the 72-hour cutoff filter (`if not ts or ts < cutoff`), then the
song pipeline. -/
def parseItem (strpt : Str → Option Int) (now : Int) (it : RawItem) :
    Option (Int × Str × Str) :=
  match getTs strpt it with
  | none => none
  | some ts =>
    if ts < cutoffOf now then none
    else (parseSong it).map (fun p => (ts, p.1, p.2))

/-- The dedup key `f"{art.lower()} - {tit.lower()}"`. -/
def recKey (r : Int × Str × Str) : Str :=
  lowerStr r.2.1 ++ (" - ".toList) ++ lowerStr r.2.2

/-- The dedup loop of `parse_records`: keep the first element carrying each
key (`seen` is the set of keys already emitted). -/
def dedupGo : List Str → List (Int × Str × Str) → List (Int × Str × Str)
  | _, [] => []
  | seen, r :: rs =>
    if recKey r ∈ seen then dedupGo seen rs
    else r :: dedupGo (recKey r :: seen) rs

/-- The sort key of `sorted(latest, key=lambda x: x[0])`. -/
def tsLe (a b : Int × Str × Str) : Prop := a.1 ≤ b.1

instance : DecidableRel tsLe := fun a b => inferInstanceAs (Decidable (a.1 ≤ b.1))

instance : IsTotal (Int × Str × Str) tsLe := ⟨fun a b => Int.le_total a.1 b.1⟩

instance : IsTrans (Int × Str × Str) tsLe := ⟨fun _ _ _ => Int.le_trans⟩

/-- `parse_records` from src/opus_sync.py: collect the surviving tuples,
sort them ascending by timestamp, and deduplicate keeping the earliest
instance of each key.  Python `sorted` is the stable sort by `x[0]`;
`List.insertionSort` with the total preorder `tsLe` is stable in the same
sense, and a stable sort of a list under a total preorder is unique. -/
def parse_records (strpt : Str → Option Int) (now : Int)
    (records : List RawItem) : List (Int × Str × Str) :=
  let latest := records.filterMap (parseItem strpt now)
  dedupGo [] (latest.insertionSort tsLe)

/-- Point lookup in a two-column SQLite table keyed by a TEXT primary key,
modelled as an association list (the primary key keeps one row per key). -/
def lookupRow {α : Type} (rows : List (Str × α)) (k : Str) : Option α :=
  (rows.find? (fun r => r.1 = k)).map (·.2)

/-- `INSERT OR REPLACE`: drop any row with the key, add the new row. -/
def upsertRow {α : Type} (rows : List (Str × α)) (k : Str) (v : α) :
    List (Str × α) :=
  (k, v) :: rows.filter (fun r => ¬ r.1 = k)

/-- The persistent store `track_cache.sqlite3`: tables `tracks` (key → uri),
`not_found` (key → last search date), `artist_genres` (artist id → genre
list) and `track_dnb_status` (uri → flag and the cached track's artist ids,
the only part of the stored track snapshot the program reads). -/
structure Db where
  tracks : List (Str × Str)
  notFound : List (Str × Str)
  artistGenres : List (Str × List Str)
  dnbStatus : List (Str × (Bool × List Str))
deriving DecidableEq

/-- The empty store, as `ensure_cache` creates it. -/
def emptyDb : Db := ⟨[], [], [], []⟩

/-- `cached_lookup` from src/opus_sync.py. -/
def cached_lookup (db : Db) (k : Str) : Option Str := lookupRow db.tracks k

/-- `is_recently_not_found` from src/opus_sync.py; `today` is the current
date string `datetime.now(tz=VILNIUS_TZ).date().isoformat()`. -/
def is_recently_not_found (db : Db) (today : Str) (k : Str) : Bool :=
  match lookupRow db.notFound k with
  | some d => d = today
  | none => false

/-- `cache_not_found` from src/opus_sync.py. -/
def cache_not_found (db : Db) (today : Str) (k : Str) : Db :=
  { db with notFound := upsertRow db.notFound k today }

/-- `cache_store` from src/opus_sync.py: upsert the positive row and delete
any `not_found` row for the same key. -/
def cache_store (db : Db) (k uri : Str) : Db :=
  { db with tracks := upsertRow db.tracks k uri,
            notFound := db.notFound.filter (fun r => ¬ r.1 = k) }

/-- The dedup key `f"{artist.lower()} - {title.lower()}"` of `search_track`. -/
def keyOf (artist title : Str) : Str :=
  lowerStr artist ++ (" - ".toList) ++ lowerStr title

/-- The multi-artist test of `search_track`: a comma, a case-insensitive
" and ", a case-sensitive " & ", a case-sensitive " Vs ", or a slash. -/
def multiArtist (artist : Str) : Bool :=
  artist.contains ',' || hasInf " and ".toList (lowerStr artist)
    || hasInf " & ".toList artist || hasInf " Vs ".toList artist
    || artist.contains '/'

/-- Python `s.split(sep)[0]`: the prefix before the first occurrence of
`sep` (the whole string when `sep` does not occur). -/
def splitHead (sep : Str) : Str → Str
  | [] => []
  | l@(c :: tl) => if sep.isPrefixOf l then [] else c :: splitHead sep tl

/-- The fallback artist extraction of `search_track`:
`artist.split(',')[0].split(' and ')[0].split(' & ')[0].split(' Vs ')[0].split('/')[0].strip()`
(each split case-sensitive, applied left to right to the shrinking prefix). -/
def first_artist (artist : Str) : Str :=
  pyStrip (splitHead "/".toList (splitHead " Vs ".toList (splitHead " & ".toList
    (splitHead " and ".toList (splitHead ",".toList artist)))))

/-- Result of one `search_track` call: the returned uri (or `None`), the
`from_cache` flag, the store after the call, and the remote search queries
issued, in order, as (title, artist) pairs — query `i` models
`sp.search(q=f'track:"{title}" artist:"{artist}"', type="track", limit=1)`. -/
structure SearchOut where
  result : Option Str
  fromCache : Bool
  db : Db
  queries : List (Str × Str)
deriving DecidableEq

/-- `search_track` from src/opus_sync.py, with the Spotify search collaborator
abstracted as `sp : title → artist → found uri?`.  The positive-cache hit
test is Python `if uri:`, so an empty cached uri string falls through like a
miss. -/
def search_track (sp : Str → Str → Option Str) (db : Db) (today : Str)
    (artist title : Str) : SearchOut :=
  let key := keyOf artist title
  let go : Unit → SearchOut := fun _ =>
    if is_recently_not_found db today key then ⟨none, true, db, []⟩
    else
      let artist_q := clean_artist artist
      let r1 := sp title artist_q
      let (items, queries) :=
        match r1 with
        | some u => (some u, [(title, artist_q)])
        | none =>
          if multiArtist artist then
            let first_artist_q := clean_artist (first_artist artist)
            (sp title first_artist_q, [(title, artist_q), (title, first_artist_q)])
          else (none, [(title, artist_q)])
      match items with
      | some uri => ⟨some uri, false, cache_store db key uri, queries⟩
      | none => ⟨none, false, cache_not_found db today key, queries⟩
  match cached_lookup db key with
  | some uri => if uri.isEmpty then go () else ⟨some uri, true, db, []⟩
  | none => go ()

/-- One slot of a playlist snapshot: `(position, added_at, uri)` as built by
`playlist_snapshot`. -/
structure Slot where
  pos : Nat
  addedAt : Int
  uri : Str
deriving DecidableEq

/-- `removals.setdefault(uri, []).append(idx)` over an insertion-ordered
dict, modelled as an association list in insertion order. -/
def addRemoval (m : List (Str × List Nat)) (uri : Str) (idx : Nat) :
    List (Str × List Nat) :=
  if (m.find? (fun e => e.1 = uri)).isSome
  then m.map (fun e => if e.1 = uri then (e.1, e.2 ++ [idx]) else e)
  else m ++ [(uri, [idx])]

/-- `BATCH_SIZE = 100`. -/
def BATCH_SIZE : Nat := 100

/-- `payload[i : i + BATCH_SIZE] for i in range(0, len(payload), BATCH_SIZE)`:
the consecutive batches of a list.  `fuel` bounds the number of steps; each
step consumes at least one element, so the list's length is enough fuel. -/
def chunksAux {α : Type} : Nat → List α → List (List α)
  | 0, _ => []
  | _ + 1, [] => []
  | fuel + 1, l@(_ :: _) => l.take BATCH_SIZE :: chunksAux fuel (l.drop BATCH_SIZE)

/-- The batches of size `BATCH_SIZE` of a list. -/
def chunks100 {α : Type} (l : List α) : List (List α) := chunksAux l.length l

/-- A remote playlist request: the paginated membership read issued by
`playlist_snapshot`, one removal-by-occurrence batch
(`sp.playlist_remove_specific_occurrences_of_items`), or one append batch
(`sp.playlist_add_items`). -/
inductive Req where
  | readPlaylist (playlist : Str)
  | removeItems (playlist : Str) (items : List (Str × List Nat))
  | addItems (playlist : Str) (uris : List Str)
deriving DecidableEq

/-- The playlist a request addresses. -/
def Req.playlist : Req → Str
  | .readPlaylist p => p
  | .removeItems p _ => p
  | .addItems p _ => p

/-- The removal-selection step of `remove_old`: when `max_tracks` is given
and the snapshot exceeds it, sort by `added_at` ascending and select every
slot except the newest `max_tracks` (Python `sorted_snapshot[:-max_tracks]`,
which is empty when `max_tracks == 0`); in every other case fall through to
the age-based branch selecting each slot older than `cutoff_hours`. -/
def removalSelection (now : Int) (snapshot : List Slot) (cutoff_hours : Int)
    (max_tracks : Option Nat) : List (Str × List Nat) :=
  let ageBased : Unit → List (Str × List Nat) := fun _ =>
    (snapshot.filter
      (fun s => s.addedAt < now - cutoff_hours * msPerHour)).foldl
      (fun m s => addRemoval m s.uri s.pos) []
  match max_tracks with
  | some n =>
    if snapshot.length > n then
      let sortedSnap := snapshot.insertionSort (fun a b => a.addedAt ≤ b.addedAt)
      let toRemove := if n = 0 then [] else sortedSnap.take (sortedSnap.length - n)
      toRemove.foldl (fun m s => addRemoval m s.uri s.pos) []
    else ageBased ()
  | none => ageBased ()

/-- `remove_old` from src/opus_sync.py: select, return `0` with no request
when nothing is selected, otherwise issue one removal request per batch of
100 payload entries and return the total number of removed occurrences. -/
def remove_old (now : Int) (snapshot : List Slot) (playlist_id : Str)
    (cutoff_hours : Int) (max_tracks : Option Nat) : Nat × List Req :=
  let removals := removalSelection now snapshot cutoff_hours max_tracks
  if removals.isEmpty then (0, [])
  else ((removals.map (fun e => e.2.length)).sum,
        (chunks100 removals).map (Req.removeItems playlist_id))

/-- `add_new` from src/opus_sync.py: one append request per batch of 100
uris, returning the accumulated count. -/
def add_new (uris : List Str) (playlist_id : Str) : Nat × List Req :=
  ((chunks100 uris).foldl (fun a c => a + c.length) 0,
   (chunks100 uris).map (Req.addItems playlist_id))

/-- `DNB_GENRE_KEYWORDS`. -/
def DNB_GENRE_KEYWORDS : List Str :=
  ["drum and bass".toList, "drum & bass".toList, "dnb".toList,
   "uk garage".toList, "jungle".toList]

/-- `bool(set(g.lower() for g in genres) & DNB_GENRE_KEYWORDS)`. -/
def dnbMatch (genres : List Str) : Bool :=
  genres.any (fun g => DNB_GENRE_KEYWORDS.contains (lowerStr g))

/-- `get_cached_artist_genres` (the stored JSON array is never the empty
string, so the row test reduces to presence). -/
def get_cached_artist_genres (db : Db) (aid : Str) : Option (List Str) :=
  lookupRow db.artistGenres aid

/-- `cache_artist_genres`. -/
def cache_artist_genres (db : Db) (aid : Str) (genres : List Str) : Db :=
  { db with artistGenres := upsertRow db.artistGenres aid genres }

/-- `get_cached_track_dnb_status`. -/
def get_cached_track_dnb_status (db : Db) (uri : Str) :
    Option (Bool × List Str) :=
  lookupRow db.dnbStatus uri

/-- `cache_track_dnb_status`. -/
def cache_track_dnb_status (db : Db) (uri : Str) (isDnb : Bool)
    (track : List Str) : Db :=
  { db with dnbStatus := upsertRow db.dnbStatus uri (isDnb, track) }

/-- `is_dnb_track` from src/opus_sync.py, walking the track's artist ids:
per artist consult the genre cache, on a miss call the artist-detail
collaborator `getArtist` and cache the full list before evaluating; return
true on the first artist whose genres intersect the keyword set. -/
def is_dnb_track (getArtist : Str → List Str) : Db → List Str → Bool × Db
  | db, [] => (false, db)
  | db, aid :: rest =>
    match get_cached_artist_genres db aid with
    | some genres =>
      if dnbMatch genres then (true, db) else is_dnb_track getArtist db rest
    | none =>
      let genres := getArtist aid
      let db1 := cache_artist_genres db aid genres
      if dnbMatch genres then (true, db1) else is_dnb_track getArtist db1 rest

/-- One iteration of the per-record loop in `main`: resolve via
`search_track`, then classify via the DNB-status cache or
`sp.track` + `is_dnb_track` (the track-detail collaborator `getTrack` yields
the track's artist ids).  Returns the updated store and, when resolved, the
uri with its DNB flag. -/
def processRecord (sp : Str → Str → Option Str) (getTrack : Str → List Str)
    (getArtist : Str → List Str) (today : Str) (db : Db)
    (artist title : Str) : Db × Option (Str × Bool) :=
  let so := search_track sp db today artist title
  match so.result with
  | some uri =>
    match get_cached_track_dnb_status so.db uri with
    | some (isDnb, _) => (so.db, some (uri, isDnb))
    | none =>
      let track := getTrack uri
      let (isDnb, db2) := is_dnb_track getArtist so.db track
      (cache_track_dnb_status db2 uri isDnb track, some (uri, isDnb))
  | none => (so.db, none)

/-- The whole per-record loop of `main`: returns the final store,
`new_uris`, `new_dnb_uris` (both in record order) and the number of misses. -/
def processAll (sp : Str → Str → Option Str) (getTrack : Str → List Str)
    (getArtist : Str → List Str) (today : Str) :
    Db → List (Int × Str × Str) → Db × List Str × List Str × Nat
  | db, [] => (db, [], [], 0)
  | db, (_, artist, title) :: rest =>
    let (db1, r) := processRecord sp getTrack getArtist today db artist title
    let (db2, us, ds, m) := processAll sp getTrack getArtist today db1 rest
    match r with
    | some (uri, isDnb) =>
      (db2, uri :: us, if isDnb then uri :: ds else ds, m)
    | none => (db2, us, ds, m + 1)

/-- `DNB_MAX_TRACKS = 100`. -/
def DNB_MAX_TRACKS : Nat := 100

/-- Result of one run of `main` (after authentication): final store, the
playlist requests issued in order, and the reported counts. -/
structure MainOut where
  db : Db
  events : List Req
  added : Nat
  removed : Nat
  dnbAdded : Nat
  dnbRemoved : Nat
  misses : Nat

/-- The playlist-facing part of `main` from src/opus_sync.py, from
`parse_records(fetch_opus())` to the summary.  The remote playlist reads are
abstracted by the snapshots they return: `snapA`/`snapB` are the main
playlist's membership before removal and at the re-read after a non-zero
removal, `dnbSnapA`/`dnbSnapB` likewise for the DNB playlist; `dnbId` is
`PLAYLIST_DNB_ID` (`none` when unset).  The DNB block runs only when
`DNB_PLAYLIST_ID and new_dnb_uris` is truthy. -/
def mainModel (sp : Str → Str → Option Str) (getTrack : Str → List Str)
    (getArtist : Str → List Str) (strpt : Str → Option Int) (today : Str)
    (now : Int) (mainId : Str) (dnbId : Option Str)
    (snapA snapB dnbSnapA dnbSnapB : List Slot) (db0 : Db)
    (items : List RawItem) : MainOut :=
  let records := parse_records strpt now items
  let pa := processAll sp getTrack getArtist today db0 records
  let db1 := pa.1
  let newUris := pa.2.1
  let newDnbUris := pa.2.2.1
  let misses := pa.2.2.2
  let rem := remove_old now snapA mainId CUTOFF_HOURS none
  let removed := rem.1
  let snapshot := if removed = 0 then snapA else snapB
  let reread := if removed = 0 then [] else [Req.readPlaylist mainId]
  let current := snapshot.map (fun s => s.uri)
  let to_add := newUris.filter (fun u => ¬ current.contains u)
  let ad := add_new to_add mainId
  let mainEvents := Req.readPlaylist mainId :: rem.2 ++ reread ++ ad.2
  match dnbId with
  | some d =>
    if newDnbUris.isEmpty then
      ⟨db1, mainEvents, ad.1, removed, 0, 0, misses⟩
    else
      let dnbRem := remove_old now dnbSnapA d CUTOFF_HOURS (some DNB_MAX_TRACKS)
      let dnbSnap := if dnbRem.1 = 0 then dnbSnapA else dnbSnapB
      let dnbReread := if dnbRem.1 = 0 then [] else [Req.readPlaylist d]
      let dnbCur := dnbSnap.map (fun s => s.uri)
      let dnb_to_add := newDnbUris.filter (fun u => ¬ dnbCur.contains u)
      let dnbAd := add_new dnb_to_add d
      ⟨db1,
       mainEvents ++ Req.readPlaylist d :: dnbRem.2 ++ dnbReread ++ dnbAd.2,
       ad.1, removed, dnbAd.1, dnbRem.1, misses⟩
  | none => ⟨db1, mainEvents, ad.1, removed, 0, 0, misses⟩

section Scratch
example : clean_artist "GandG".toList = "G&G".toList := by decide
example : spec_clean_artist "GandG".toList = "GandG".toList := by decide
example : clean_artist "A & and B".toList = "A &  B".toList := by decide
example : clean_artist "Simon and Garfunkel".toList = "Simon  Garfunkel".toList := by decide
example : clean_artist "Band of Horses".toList = "Band of Horses".toList := by decide

example : artTitleMatch "Artist Name - Song Title".toList
    = some ("Artist Name".toList, "Song Title".toList) := by decide
example : artTitleMatch "Artist Name: Song Title".toList = none := by decide
example : artTitleMatch "A-B".toList = some ("A".toList, "B".toList) := by decide
example : artTitleMatch "A-B - C".toList = some ("A".toList, "B - C".toList) := by decide
example : featSub "Song Title (feat. Another Artist)".toList = "Song Title ".toList := by decide
example : featSub "Song Title (ft X) tail".toList = "Song Title tail".toList := by decide
example : stripYearSuffix "Song Title (2024)".toList = "Song Title ".toList := by decide
example : stripYearSuffix "Song Title".toList = "Song Title".toList := by decide

example :
    parse_records (fun _ => none) 0
      [⟨some (.num (-1000)), none, none, some "Artist1 - Title1 (2024)".toList, none⟩,
       ⟨some (.num 0), none, none, some "artist1 - TITLE1".toList, none⟩,
       ⟨some (.num (-400000000)), none, none, some "Old - Gone".toList, none⟩]
    = [(-1000, "Artist1".toList, "Title1".toList)] := by decide

example : first_artist "A & and B".toList = "A &".toList := by decide
example : first_artist "A, B and C".toList = "A".toList := by decide
example : clean_artist "A &".toList = "A &".toList := by decide

example :
    (search_track (fun _ a => if a = "A &".toList then some "u".toList else none)
      emptyDb "2025-01-01".toList "A & and B".toList "T".toList).queries
    = [("T".toList, "A &  B".toList), ("T".toList, "A &".toList)] := by decide

example :
    remove_old 0 [⟨0, -400000000, "u".toList⟩] "p".toList CUTOFF_HOURS (some 3)
    = (1, [Req.removeItems "p".toList [("u".toList, [0])]]) := by decide

example :
    remove_old 0 [⟨0, -1, "a".toList⟩, ⟨1, -5, "b".toList⟩, ⟨2, -3, "c".toList⟩,
        ⟨3, -2, "d".toList⟩, ⟨4, -4, "e".toList⟩] "p".toList CUTOFF_HOURS (some 3)
    = (2, [Req.removeItems "p".toList [("b".toList, [1]), ("e".toList, [4])]]) := by
  decide
end Scratch

theorem lookupRow_filter_no_key {α : Type} (rows : List (Str × α)) (k : Str) :
    lookupRow (rows.filter (fun r => !decide (r.1 = k))) k = none := by
  induction rows with
  | nil => rfl
  | cons r rs ih =>
    by_cases h : r.1 = k
    · simp only [List.filter_cons, h, decide_True, Bool.not_true, if_false]
      exact ih
    · simp only [List.filter_cons, h, decide_False, Bool.not_false, if_true,
        lookupRow, List.find?_cons]
      exact ih

theorem lookupRow_upsert_self {α : Type} (rows : List (Str × α)) (k : Str)
    (v : α) : lookupRow (upsertRow rows k v) k = some v := by
  simp [lookupRow, upsertRow, List.find?_cons]

/-- C4: storing a negative entry for a key and then a positive resolution
for the same key leaves the negative cache empty for that key (on any later
date, in particular the same day) and makes `cached_lookup` return the
stored uri. -/
theorem cache_store_overrides_negative (db : Db) (today today2 k uri : Str) :
    is_recently_not_found (cache_store (cache_not_found db today k) k uri) today2 k
      = false
    ∧ cached_lookup (cache_store (cache_not_found db today k) k uri) k = some uri := by
  refine ⟨?_, ?_⟩
  · simp [is_recently_not_found, cache_store, cache_not_found,
      lookupRow_filter_no_key]
  · simp [cached_lookup, cache_store, cache_not_found, lookupRow_upsert_self]

/-- C8 counterexample: `clean_artist` does not leave every character other
than a removed standalone "and" unchanged — the artist "GandG" (whose "and"
is not standalone) is rewritten to "G&G", while the spec-described
sanitization leaves it alone. -/
theorem clean_artist_gandg_counterexample :
    clean_artist "GandG".toList = "G&G".toList
    ∧ spec_clean_artist "GandG".toList = "GandG".toList
    ∧ clean_artist "GandG".toList ≠ spec_clean_artist "GandG".toList := by
  refine ⟨by decide, by decide, by decide⟩

theorem andSub_sublist : ∀ (prevW : Bool) (l : Str), (andSub prevW l).Sublist l
  | _, [] => List.Sublist.refl []
  | prevW, c1 :: c2 :: c3 :: rest => by
    by_cases h : (!prevW && c1.toLower = 'a' && c2.toLower = 'n'
        && c3.toLower = 'd' && !headIsWord rest) = true
    · rw [andSub, if_pos h]
      exact ((andSub_sublist true rest).cons c3 |>.cons c2 |>.cons c1)
    · rw [andSub, if_neg h]
      exact (andSub_sublist (isWordChar c1) (c2 :: c3 :: rest)).cons₂ c1
  | _, [c1, c2] => List.Sublist.refl _
  | _, [c1] => List.Sublist.refl _

/-- C8 amended: for artist strings not containing "GandG", `clean_artist`
coincides with the spec-described sanitization (remove standalone "and",
trim); moreover that sanitization only removes characters — its un-stripped
core is a sublist of the input. -/
theorem clean_artist_amended (a : Str) (h : hasInf "GandG".toList a = false) :
    clean_artist a = spec_clean_artist a ∧ (andSub false a).Sublist a := by
  refine ⟨?_, andSub_sublist false a⟩
  have h2 : hasInf ['G', 'a', 'n', 'd', 'G'] a = false := h
  simp [clean_artist, spec_clean_artist, h2]

/-- C1: evaluation of `remove_old` at the failing input.  A snapshot with a
single slot added 111 hours before `now`, reconciled with
`max_tracks = 3`: the slot count (1) is at most 3, so under a `MaxCount(3)`
policy nothing is eligible, yet the code falls into the age-based
else-branch and removes the slot (count 1, one removal request naming its
uri and position). -/
theorem remove_old_max_not_exceeded_eval :
    remove_old 0 [⟨0, -400000000, "u".toList⟩] "p".toList CUTOFF_HOURS (some 3)
      = (1, [Req.removeItems "p".toList [("u".toList, [0])]])
    ∧ ((1 : Nat), [Req.removeItems "p".toList [("u".toList, [0])]])
        ≠ ((0 : Nat), ([] : List Req)) := by
  exact ⟨by decide, by decide⟩

/-- C2 counterexample: with `now = 0`, a feed record whose timestamp is
exactly `now - cutoff` (epoch millisecond `-259200000`, 72 hours before
`now`) survives normalization — the claim says it is excluded. -/
theorem parse_records_boundary_counterexample :
    cutoffOf 0 = -259200000
    ∧ parse_records (fun _ => none) 0
        [⟨some (.num (-259200000)), none, none, some "A - B".toList, none⟩]
      = [(-259200000, "A".toList, "B".toList)] := by
  exact ⟨by decide, by decide⟩

/-- C2 amended: the cutoff comparison of `parse_records` is
`ts < now - 72h` — a record whose timestamp is exactly `now - cutoff` is
included (it proceeds to the song pipeline), and a record one millisecond
earlier is excluded. -/
theorem parse_records_boundary_amended (strpt : Str → Option Int) (now : Int)
    (it : RawItem) (ts : Int) (hts : getTs strpt it = some ts) :
    (ts = cutoffOf now →
      parseItem strpt now it = (parseSong it).map (fun p => (ts, p.1, p.2)))
    ∧ (ts = cutoffOf now - 1 → parseItem strpt now it = none) := by
  constructor
  · intro h
    simp [parseItem, hts, h]
  · intro h
    simp [parseItem, hts, h]

theorem parse_records_boundary_amended_witness :
    getTs (fun _ => none)
        ⟨some (.num (-259200000)), none, none, some "A - B".toList, none⟩
      = some (-259200000)
    ∧ ((-259200000 : Int) = cutoffOf 0 →
        parseItem (fun _ => none) 0
            ⟨some (.num (-259200000)), none, none, some "A - B".toList, none⟩
          = (parseSong
              ⟨some (.num (-259200000)), none, none, some "A - B".toList, none⟩).map
              (fun p => (-259200000, p.1, p.2))) :=
  ⟨by decide,
   (parse_records_boundary_amended (fun _ => none) 0
      ⟨some (.num (-259200000)), none, none, some "A - B".toList, none⟩
      (-259200000) (by decide)).1⟩

/-- C3 counterexample: the raw song "A-B" contains no " - "
(space-hyphen-space) separator, yet it is not dropped — `parse_records`
splits it at the bare hyphen into ("A", "B"). -/
theorem parse_records_separator_counterexample :
    hasInf " - ".toList "A-B".toList = false
    ∧ parse_records (fun _ => none) 0
        [⟨some (.num 1), none, none, some "A-B".toList, none⟩]
      = [(1, "A".toList, "B".toList)] := by
  exact ⟨by decide, by decide⟩

/-- C7: a positive cache hit (with the cached uri nonempty, as every stored
search result is) returns the cached uri at once — store untouched, no
remote query; a key negatively cached today returns `None` at once — store
untouched, no remote query. -/
theorem search_track_cache_first (sp : Str → Str → Option Str) (db : Db)
    (today artist title : Str) (uri : Str) :
    (cached_lookup db (keyOf artist title) = some uri → uri ≠ [] →
      search_track sp db today artist title = ⟨some uri, true, db, []⟩)
    ∧ (cached_lookup db (keyOf artist title) = none →
       is_recently_not_found db today (keyOf artist title) = true →
       search_track sp db today artist title = ⟨none, true, db, []⟩) := by
  constructor
  · intro h hne
    cases uri with
    | nil => exact absurd rfl hne
    | cons c tl => simp [search_track, h]
  · intro h hneg
    simp [search_track, h, hneg]

theorem search_track_cache_first_witness :
    cached_lookup ⟨[("a - t".toList, "u1".toList)], [], [], []⟩
        (keyOf "A".toList "T".toList) = some "u1".toList
    ∧ "u1".toList ≠ []
    ∧ search_track (fun _ _ => some "other".toList)
        ⟨[("a - t".toList, "u1".toList)], [], [], []⟩
        "2025-06-01".toList "A".toList "T".toList
      = ⟨some "u1".toList, true, ⟨[("a - t".toList, "u1".toList)], [], [], []⟩, []⟩ :=
  ⟨by decide, by decide,
   (search_track_cache_first (fun _ _ => some "other".toList)
      ⟨[("a - t".toList, "u1".toList)], [], [], []⟩
      "2025-06-01".toList "A".toList "T".toList "u1".toList).1 (by decide)
      (by decide)⟩

/-- C5 counterexample: in the artist "A & and B" the first separator
occurrence is " & " (before the overlapping " and "), so the claim predicts
a second query with the sanitized substring before it, "A".  The code's
sequential splitting cuts at " and " first, after which the surviving
prefix "A &" no longer contains a " & " occurrence, and the second query is
issued with artist "A &" instead. -/
theorem search_track_fallback_counterexample :
    (search_track (fun _ a => if a = "A &".toList then some "u".toList else none)
        emptyDb "2025-06-01".toList "A & and B".toList "T".toList).queries
      = [("T".toList, "A &  B".toList), ("T".toList, "A &".toList)]
    ∧ clean_artist (pyStrip (splitHead " & ".toList "A & and B".toList))
        = "A".toList
    ∧ ("A &".toList : Str) ≠ "A".toList := by
  exact ⟨by decide, by decide, by decide⟩

/-- C5 amended: when both caches miss, the first search (with the sanitized
full artist string) returns nothing, and the original artist string passes
the multi-artist test, a second search is issued whose artist is the
sanitized result of the sequential splits
`split(',')[0].split(' and ')[0].split(' & ')[0].split(' Vs ')[0].split('/')[0].strip()`
(= `first_artist`); when that second search succeeds, the uri is cached
under the DedupKey of the original combined artist string. -/
theorem search_track_fallback_amended (sp : Str → Str → Option Str) (db : Db)
    (today artist title : Str)
    (h1 : cached_lookup db (keyOf artist title) = none)
    (h2 : is_recently_not_found db today (keyOf artist title) = false)
    (h3 : sp title (clean_artist artist) = none)
    (h4 : multiArtist artist = true) :
    (search_track sp db today artist title).queries
      = [(title, clean_artist artist), (title, clean_artist (first_artist artist))]
    ∧ (∀ uri, sp title (clean_artist (first_artist artist)) = some uri →
        search_track sp db today artist title
          = ⟨some uri, false, cache_store db (keyOf artist title) uri,
             [(title, clean_artist artist),
              (title, clean_artist (first_artist artist))]⟩) := by
  constructor
  · simp only [search_track, h1, h2, h3, h4, if_true, if_false]
    cases hsp : sp title (clean_artist (first_artist artist)) <;> simp [hsp]
  · intro uri hsp
    simp [search_track, h1, h2, h3, h4, hsp]

theorem search_track_fallback_amended_witness :
    cached_lookup emptyDb (keyOf "A, B".toList "T".toList) = none
    ∧ is_recently_not_found emptyDb "2025-06-01".toList
        (keyOf "A, B".toList "T".toList) = false
    ∧ (fun (_ : Str) a => if a = "A".toList then some "u".toList else none)
        "T".toList (clean_artist "A, B".toList) = none
    ∧ multiArtist "A, B".toList = true
    ∧ (search_track
          (fun _ a => if a = "A".toList then some "u".toList else none)
          emptyDb "2025-06-01".toList "A, B".toList "T".toList).queries
      = [("T".toList, clean_artist "A, B".toList),
         ("T".toList, clean_artist (first_artist "A, B".toList))] :=
  ⟨by decide, by decide, by decide, by decide,
   (search_track_fallback_amended
      (fun _ a => if a = "A".toList then some "u".toList else none)
      emptyDb "2025-06-01".toList "A, B".toList "T".toList
      (by decide) (by decide) (by decide) (by decide)).1⟩

theorem chunksAux_nil {α : Type} : ∀ f : Nat, chunksAux f ([] : List α) = []
  | 0 => rfl
  | _ + 1 => rfl

theorem chunksAux_fuel {α : Type} :
    ∀ (f1 f2 : Nat) (l : List α), l.length ≤ f1 → l.length ≤ f2 →
      chunksAux f1 l = chunksAux f2 l
  | 0, f2, l, h1, _ => by
    have : l = [] := List.eq_nil_of_length_eq_zero (Nat.le_zero.mp h1)
    subst this
    rw [chunksAux_nil, chunksAux_nil]
  | _ + 1, _, [], _, _ => by rw [chunksAux_nil, chunksAux_nil]
  | f1 + 1, f2, c :: tl, h1, h2 => by
    match f2, h2 with
    | f2 + 1, h2 =>
      show (c :: tl).take BATCH_SIZE :: chunksAux f1 ((c :: tl).drop BATCH_SIZE)
        = (c :: tl).take BATCH_SIZE :: chunksAux f2 ((c :: tl).drop BATCH_SIZE)
      have hd : ((c :: tl).drop BATCH_SIZE).length ≤ tl.length := by
        simp only [List.length_drop, List.length_cons, BATCH_SIZE]
        omega
      have h1a : tl.length ≤ f1 := Nat.lt_succ_iff.mp h1
      have h2a : tl.length ≤ f2 := Nat.lt_succ_iff.mp h2
      rw [chunksAux_fuel f1 f2 _ (le_trans hd h1a) (le_trans hd h2a)]

theorem chunks100_step {α : Type} (l : List α) (h : BATCH_SIZE < l.length) :
    chunks100 l = l.take BATCH_SIZE :: chunks100 (l.drop BATCH_SIZE) := by
  match l, h with
  | c :: tl, h =>
    show chunksAux (c :: tl).length (c :: tl) = _
    rw [List.length_cons]
    show (c :: tl).take BATCH_SIZE :: chunksAux tl.length ((c :: tl).drop BATCH_SIZE)
      = _
    rw [chunksAux_fuel tl.length ((c :: tl).drop BATCH_SIZE).length _ ?_ le_rfl]
    · rfl
    · simp only [List.length_drop, List.length_cons, BATCH_SIZE]
      omega

theorem chunks100_small {α : Type} (l : List α) (h0 : l ≠ [])
    (h : l.length ≤ BATCH_SIZE) : chunks100 l = [l] := by
  match l, h0 with
  | c :: tl, _ =>
    show chunksAux (c :: tl).length (c :: tl) = _
    rw [List.length_cons]
    show (c :: tl).take BATCH_SIZE :: chunksAux tl.length ((c :: tl).drop BATCH_SIZE)
      = _
    rw [List.take_of_length_le h, List.drop_eq_nil_of_le h, chunksAux_nil]

/-- C9: adding 110 uris issues exactly two append requests, carrying the
first 100 and the remaining 10 uris and nothing else, and `add_new` returns
110; and whenever the removal-selection step of `remove_old` selects no
slot, `remove_old` issues no request and returns 0. -/
theorem batch_boundary_and_zero_removal :
    (∀ (uris : List Str) (pid : Str), uris.length = 110 →
      add_new uris pid
        = (110, [Req.addItems pid (uris.take 100), Req.addItems pid (uris.drop 100)])
      ∧ (uris.take 100).length = 100 ∧ (uris.drop 100).length = 10)
    ∧ (∀ (now : Int) (snapshot : List Slot) (pid : Str) (ch : Int)
        (mt : Option Nat), removalSelection now snapshot ch mt = [] →
        remove_old now snapshot pid ch mt = (0, [])) := by
  constructor
  · intro uris pid h
    have h1 : chunks100 uris = uris.take 100 :: chunks100 (uris.drop 100) :=
      chunks100_step uris (by rw [h]; decide)
    have hd : (uris.drop 100).length = 10 := by
      simp [List.length_drop, h]
    have h2 : chunks100 (uris.drop 100) = [uris.drop 100] := by
      refine chunks100_small _ ?_ (by rw [show ((uris.drop 100).length
        ≤ BATCH_SIZE) = ((uris.drop 100).length ≤ 100) from rfl, hd]; decide)
      intro hnil
      rw [hnil] at hd
      simp at hd
    have ht : (uris.take 100).length = 100 := by
      simp [List.length_take, h]
    refine ⟨?_, ht, hd⟩
    simp [add_new, h1, h2, ht, hd]
  · intro now snapshot pid ch mt h
    simp [remove_old, h]

theorem batch_boundary_and_zero_removal_witness :
    (List.replicate 110 "u".toList).length = 110
    ∧ (add_new (List.replicate 110 "u".toList) "p".toList
        = (110,
           [Req.addItems "p".toList ((List.replicate 110 "u".toList).take 100),
            Req.addItems "p".toList ((List.replicate 110 "u".toList).drop 100)])
      ∧ ((List.replicate 110 "u".toList).take 100).length = 100
      ∧ ((List.replicate 110 "u".toList).drop 100).length = 10)
    ∧ (removalSelection 0 [] CUTOFF_HOURS none = []
      ∧ remove_old 0 [] "p".toList CUTOFF_HOURS none = (0, [])) :=
  ⟨by simp,
   batch_boundary_and_zero_removal.1 _ _ (by simp),
   by decide,
   batch_boundary_and_zero_removal.2 0 [] _ _ _ (by decide)⟩

theorem dedupGo_sublist (seen : List Str) (l : List (Int × Str × Str)) :
    (dedupGo seen l).Sublist l := by
  induction l generalizing seen with
  | nil => exact List.Sublist.refl []
  | cons x xs ih =>
    by_cases h : recKey x ∈ seen
    · rw [dedupGo, if_pos h]
      exact (ih seen).cons x
    · rw [dedupGo, if_neg h]
      exact (ih (recKey x :: seen)).cons₂ x

theorem mem_dedupGo_not_seen {seen : List Str} {l : List (Int × Str × Str)}
    {r : Int × Str × Str} (h : r ∈ dedupGo seen l) : recKey r ∉ seen := by
  induction l generalizing seen with
  | nil => simp [dedupGo] at h
  | cons x xs ih =>
    by_cases hx : recKey x ∈ seen
    · rw [dedupGo, if_pos hx] at h
      exact ih h
    · rw [dedupGo, if_neg hx] at h
      rcases List.mem_cons.mp h with h1 | h1
      · rw [h1]
        exact hx
      · intro hmem
        exact ih h1 (List.mem_cons_of_mem _ hmem)

theorem dedupGo_keys_nodup (seen : List Str) (l : List (Int × Str × Str)) :
    ((dedupGo seen l).map recKey).Nodup := by
  induction l generalizing seen with
  | nil => simp [dedupGo]
  | cons x xs ih =>
    by_cases h : recKey x ∈ seen
    · rw [dedupGo, if_pos h]
      exact ih seen
    · rw [dedupGo, if_neg h]
      refine List.nodup_cons.mpr ⟨?_, ih (recKey x :: seen)⟩
      intro hmem
      rcases List.mem_map.mp hmem with ⟨r, hr, hkey⟩
      exact mem_dedupGo_not_seen hr (by rw [hkey]; exact List.mem_cons_self _ _)

theorem dedupGo_min {l : List (Int × Str × Str)} (hs : List.Sorted tsLe l) :
    ∀ (seen : List Str) (r s : Int × Str × Str),
      r ∈ dedupGo seen l → s ∈ l → recKey s = recKey r → r.1 ≤ s.1 := by
  induction l with
  | nil => intro seen r s hr hs'; simp at hs'
  | cons x xs ih =>
    rcases List.sorted_cons.mp hs with ⟨hx, hxs⟩
    intro seen r s hr hsmem hkey
    by_cases hseen : recKey x ∈ seen
    · rw [dedupGo, if_pos hseen] at hr
      rcases List.mem_cons.mp hsmem with h1 | h1
      · exact absurd (by rw [← hkey, h1]; exact hseen) (mem_dedupGo_not_seen hr)
      · exact ih hxs seen r s hr h1 hkey
    · rw [dedupGo, if_neg hseen] at hr
      rcases List.mem_cons.mp hr with h2 | h2
      · rcases List.mem_cons.mp hsmem with h1 | h1
        · rw [h1, h2]
        · exact h2 ▸ hx s h1
      · have hne : recKey r ≠ recKey x := by
          intro he
          exact mem_dedupGo_not_seen h2 (by rw [he]; exact List.mem_cons_self _ _)
        rcases List.mem_cons.mp hsmem with h1 | h1
        · exact absurd (h1 ▸ hkey) (fun he => hne he.symm)
        · exact ih hxs (recKey x :: seen) r s h2 h1 hkey

theorem dedupGo_complete (seen : List Str) (l : List (Int × Str × Str)) :
    ∀ s ∈ l, recKey s ∈ seen ∨ ∃ r ∈ dedupGo seen l, recKey r = recKey s := by
  induction l generalizing seen with
  | nil => intro s hs; simp at hs
  | cons x xs ih =>
    intro s hs
    by_cases hx : recKey x ∈ seen
    · rw [dedupGo, if_pos hx]
      rcases List.mem_cons.mp hs with h1 | h1
      · exact Or.inl (h1 ▸ hx)
      · exact ih seen s h1
    · rw [dedupGo, if_neg hx]
      rcases List.mem_cons.mp hs with h1 | h1
      · exact Or.inr ⟨x, List.mem_cons_self _ _, by rw [h1]⟩
      · rcases ih (recKey x :: seen) s h1 with h2 | ⟨r, hr, hk⟩
        · rcases List.mem_cons.mp h2 with h3 | h3
          · exact Or.inr ⟨x, List.mem_cons_self _ _, h3.symm⟩
          · exact Or.inl h3
        · exact Or.inr ⟨r, List.mem_cons_of_mem _ hr, hk⟩

/-- C6: the output of `parse_records` is sorted ascending by timestamp,
its DedupKeys are pairwise distinct, every output record is one of the
surviving (parsed, in-window) tuples, each output record carries the
smallest timestamp among the surviving tuples with its key, and every
surviving key is represented in the output — so duplicate tuples with
distinct in-window timestamps collapse to exactly one record bearing the
earliest timestamp. -/
theorem parse_records_sorted_unique_earliest (strpt : Str → Option Int)
    (now : Int) (records : List RawItem) :
    List.Sorted tsLe (parse_records strpt now records)
    ∧ ((parse_records strpt now records).map recKey).Nodup
    ∧ (∀ r ∈ parse_records strpt now records,
        r ∈ records.filterMap (parseItem strpt now))
    ∧ (∀ r ∈ parse_records strpt now records,
        ∀ s ∈ records.filterMap (parseItem strpt now),
          recKey s = recKey r → r.1 ≤ s.1)
    ∧ (∀ s ∈ records.filterMap (parseItem strpt now),
        ∃ r ∈ parse_records strpt now records, recKey r = recKey s) := by
  have hout : parse_records strpt now records
      = dedupGo [] ((records.filterMap (parseItem strpt now)).insertionSort tsLe) :=
    rfl
  have hsorted : List.Sorted tsLe
      ((records.filterMap (parseItem strpt now)).insertionSort tsLe) :=
    List.sorted_insertionSort tsLe _
  have hperm : ((records.filterMap (parseItem strpt now)).insertionSort tsLe).Perm
      (records.filterMap (parseItem strpt now)) :=
    List.perm_insertionSort tsLe _
  refine ⟨?_, ?_, ?_, ?_, ?_⟩
  · rw [hout]
    exact List.Pairwise.sublist (dedupGo_sublist _ _) hsorted
  · rw [hout]
    exact dedupGo_keys_nodup _ _
  · intro r hr
    rw [hout] at hr
    exact hperm.subset ((dedupGo_sublist _ _).subset hr)
  · intro r hr s hsm hkey
    rw [hout] at hr
    exact dedupGo_min hsorted [] r s hr (hperm.mem_iff.mpr hsm) hkey
  · intro s hsm
    rcases dedupGo_complete []
        ((records.filterMap (parseItem strpt now)).insertionSort tsLe) s
        (hperm.mem_iff.mpr hsm) with h | ⟨r, hr, hk⟩
    · simp at h
    · exact ⟨r, by rw [hout]; exact hr, hk⟩

theorem parse_records_sorted_unique_earliest_witness :
    ((-1000, "Artist1".toList, "Title1".toList) : Int × Str × Str)
        ∈ parse_records (fun _ => none) 0
          [⟨some (.num (-1000)), none, none, some "Artist1 - Title1".toList, none⟩,
           ⟨some (.num (-500)), none, none, some "ARTIST1 - title1".toList, none⟩]
    ∧ ((-500, "ARTIST1".toList, "title1".toList) : Int × Str × Str)
        ∈ [⟨some (.num (-1000)), none, none, some "Artist1 - Title1".toList, none⟩,
           (⟨some (.num (-500)), none, none, some "ARTIST1 - title1".toList, none⟩ :
             RawItem)].filterMap (parseItem (fun _ => none) 0)
    ∧ recKey ((-500, "ARTIST1".toList, "title1".toList) : Int × Str × Str)
        = recKey ((-1000, "Artist1".toList, "Title1".toList) : Int × Str × Str)
    ∧ ((-1000 : Int), "Artist1".toList, "Title1".toList).1
        ≤ ((-500 : Int), "ARTIST1".toList, "title1".toList).1 :=
  ⟨by decide, by decide, by decide,
   (parse_records_sorted_unique_earliest (fun _ => none) 0
      [⟨some (.num (-1000)), none, none, some "Artist1 - Title1".toList, none⟩,
       ⟨some (.num (-500)), none, none, some "ARTIST1 - title1".toList, none⟩]).2.2.2.1
     _ (by decide) _ (by decide) (by decide)⟩

theorem dropTrailWs_sublist (l : Str) : (dropTrailWs l).Sublist l := by
  have h := (List.dropWhile_sublist (l := l.reverse) pyIsSpace).reverse
  rwa [List.reverse_reverse] at h

theorem noNL_of_sublist {l1 l2 : Str} (h : l1.Sublist l2) (h2 : noNL l2 = true) :
    noNL l1 = true := by
  rw [noNL, List.all_eq_true] at h2 ⊢
  exact fun c hc => h2 c (h.subset hc)

theorem noNL_reverse (l : Str) : noNL l.reverse = noNL l := by
  simp [noNL, List.all_eq_true]

theorem artGo_no_newline :
    ∀ (rest acc : Str), noNL acc = true → noNL rest = true →
      artGo acc rest =
        if '-' ∈ rest
        then some
          (dropTrailWs (acc.reverse ++ rest.takeWhile (fun c => c != '-')),
           dropTrailWs (((rest.dropWhile (fun c => c != '-')).tail).dropWhile
             pyIsSpace))
        else none
  | [], acc, _, _ => by simp [artGo]
  | c :: tl, acc, hacc, hrest => by
    have hc_tl : noNL tl = true := by
      rw [noNL, List.all_eq_true] at hrest ⊢
      exact fun x hx => hrest x (List.mem_cons_of_mem _ hx)
    by_cases hc : c = '-'
    · rw [artGo, if_pos hc]
      have hart : noNL (dropTrailWs acc.reverse) = true :=
        noNL_of_sublist (dropTrailWs_sublist _) (by rwa [noNL_reverse])
      have htit : noNL (dropTrailWs (tl.dropWhile pyIsSpace)) = true :=
        noNL_of_sublist
          ((dropTrailWs_sublist _).trans (List.dropWhile_sublist _)) hc_tl
      rw [if_pos (by rw [hart, htit]; rfl)]
      have h1 : (c :: tl).takeWhile (fun c => c != '-') = [] := by
        simp [List.takeWhile_cons, hc]
      have h2 : (c :: tl).dropWhile (fun c => c != '-') = c :: tl := by
        simp [List.dropWhile_cons, hc]
      rw [if_pos (by rw [hc]; exact List.mem_cons_self _ _), h1, h2,
        List.append_nil]
      rfl
    · rw [artGo, if_neg hc]
      have hcnl : (c != '\n') = true := by
        rw [noNL, List.all_eq_true] at hrest
        exact hrest c (List.mem_cons_self _ _)
      have hacc2 : noNL (c :: acc) = true := by
        rw [noNL, List.all_cons, hcnl, Bool.true_and]
        exact hacc
      rw [artGo_no_newline tl (c :: acc) hacc2 hc_tl]
      have h1 : (c :: tl).takeWhile (fun c => c != '-') =
          c :: tl.takeWhile (fun c => c != '-') := by
        simp [List.takeWhile_cons, hc]
      have h2 : (c :: tl).dropWhile (fun c => c != '-')
          = tl.dropWhile (fun c => c != '-') := by
        simp [List.dropWhile_cons, hc]
      by_cases hm : '-' ∈ tl
      · rw [if_pos hm, if_pos (List.mem_cons_of_mem c hm), h1, h2]
        have hap : (c :: acc).reverse ++ tl.takeWhile (fun c => c != '-')
            = acc.reverse ++ c :: tl.takeWhile (fun c => c != '-') := by
          simp
        rw [hap]
      · rw [if_neg hm, if_neg (fun hcm => by
          rcases List.mem_cons.mp hcm with h3 | h3
          · exact hc h3.symm
          · exact hm h3)]

theorem dropWhile_space_dropWhile_hyphen (s : Str) :
    (s.dropWhile pyIsSpace).dropWhile (fun c => c != '-')
      = s.dropWhile (fun c => c != '-') := by
  induction s with
  | nil => rfl
  | cons c tl ih =>
    by_cases hw : pyIsSpace c = true
    · have hne : (c != '-') = true := by
        by_cases hcc : c = '-'
        · subst hcc
          exact absurd hw (by decide)
        · simp [hcc]
      rw [List.dropWhile_cons, if_pos hw, List.dropWhile_cons, if_pos hne]
      exact ih
    · rw [List.dropWhile_cons, if_neg hw]

theorem takeWhile_hyphen_dropWhile_space (s : Str) :
    (s.dropWhile pyIsSpace).takeWhile (fun c => c != '-')
      = (s.takeWhile (fun c => c != '-')).dropWhile pyIsSpace := by
  induction s with
  | nil => rfl
  | cons c tl ih =>
    by_cases hw : pyIsSpace c = true
    · have hne : (c != '-') = true := by
        by_cases hcc : c = '-'
        · subst hcc
          exact absurd hw (by decide)
        · simp [hcc]
      rw [List.dropWhile_cons, if_pos hw, List.takeWhile_cons, if_pos hne,
        List.dropWhile_cons, if_pos hw]
      exact ih
    · rw [List.dropWhile_cons, if_neg hw]
      by_cases hh : (c != '-') = true
      · rw [List.takeWhile_cons, if_pos hh, List.dropWhile_cons, if_neg hw]
      · rw [List.takeWhile_cons, if_neg hh]
        rfl

theorem mem_hyphen_dropWhile_space (s : Str) :
    ('-' ∈ s.dropWhile pyIsSpace) ↔ ('-' ∈ s) := by
  induction s with
  | nil => simp
  | cons c tl ih =>
    by_cases hw : pyIsSpace c = true
    · rw [List.dropWhile_cons, if_pos hw, ih, List.mem_cons]
      have hcc : c ≠ '-' := by
        intro he
        rw [he] at hw
        exact absurd hw (by decide)
      constructor
      · exact Or.inr
      · rintro (h | h)
        · exact absurd h.symm hcc
        · exact h
    · rw [List.dropWhile_cons, if_neg hw]

/-- C3 amended: on newline-free input, `ART_TITLE_RE` splits at the *first
hyphen*, whether or not it is surrounded by spaces: the artist group is the
text before the first hyphen and the title group the text after it, each
with surrounding whitespace stripped; only strings with no hyphen at all
fail to match (and are dropped by `parse_records`). -/
theorem artTitleMatch_first_hyphen (s : Str) (h : noNL s = true) :
    artTitleMatch s =
      if '-' ∈ s
      then some (pyStrip (s.takeWhile (fun c => c != '-')),
                 pyStrip ((s.dropWhile (fun c => c != '-')).tail))
      else none := by
  rw [artTitleMatch, artGo_no_newline (s.dropWhile pyIsSpace) [] rfl
    (noNL_of_sublist (List.dropWhile_sublist _) h)]
  rw [List.reverse_nil, List.nil_append,
    takeWhile_hyphen_dropWhile_space, dropWhile_space_dropWhile_hyphen]
  simp only [mem_hyphen_dropWhile_space]
  rfl

theorem artTitleMatch_first_hyphen_witness :
    noNL "AC-DC - Song".toList = true
    ∧ artTitleMatch "AC-DC - Song".toList =
        (if '-' ∈ "AC-DC - Song".toList
         then some (pyStrip ("AC-DC - Song".toList.takeWhile (fun c => c != '-')),
                    pyStrip (("AC-DC - Song".toList.dropWhile
                      (fun c => c != '-')).tail))
         else none) :=
  ⟨by decide, artTitleMatch_first_hyphen "AC-DC - Song".toList (by decide)⟩

theorem remove_old_playlist (now : Int) (snapshot : List Slot) (pid : Str)
    (ch : Int) (mt : Option Nat) :
    ∀ q ∈ (remove_old now snapshot pid ch mt).2, q.playlist = pid := by
  intro q hq
  by_cases h : (removalSelection now snapshot ch mt).isEmpty
  · simp [remove_old, h] at hq
  · simp only [remove_old, h, Bool.false_eq_true, if_false] at hq
    rcases List.mem_map.mp hq with ⟨c, _, hc⟩
    rw [← hc]
    rfl

theorem add_new_playlist (uris : List Str) (pid : Str) :
    ∀ q ∈ (add_new uris pid).2, q.playlist = pid := by
  intro q hq
  rcases List.mem_map.mp hq with ⟨c, _, hc⟩
  rw [← hc]
  rfl

/-- C10: on a run where no resolved track is classified as DNB
(`new_dnb_uris` is empty — in particular on a run with no feed records),
every playlist request of the run targets the main playlist, so the
configured DNB playlist receives neither its membership read nor any
removal or append request and its reported counts are 0; meanwhile the main
playlist's retention step still executes — the run's removed count is
exactly `remove_old`'s on the main snapshot, and each of its removal
requests is issued. -/
theorem main_skips_dnb_when_none_classified (sp : Str → Str → Option Str)
    (getTrack : Str → List Str) (getArtist : Str → List Str)
    (strpt : Str → Option Int) (today : Str) (now : Int) (mainId : Str)
    (dnbId : Option Str) (snapA snapB dnbSnapA dnbSnapB : List Slot)
    (db0 : Db) (items : List RawItem)
    (h : (processAll sp getTrack getArtist today db0
        (parse_records strpt now items)).2.2.1 = []) :
    (∀ e ∈ (mainModel sp getTrack getArtist strpt today now mainId dnbId
        snapA snapB dnbSnapA dnbSnapB db0 items).events, e.playlist = mainId)
    ∧ (mainModel sp getTrack getArtist strpt today now mainId dnbId
        snapA snapB dnbSnapA dnbSnapB db0 items).dnbAdded = 0
    ∧ (mainModel sp getTrack getArtist strpt today now mainId dnbId
        snapA snapB dnbSnapA dnbSnapB db0 items).dnbRemoved = 0
    ∧ (mainModel sp getTrack getArtist strpt today now mainId dnbId
        snapA snapB dnbSnapA dnbSnapB db0 items).removed
        = (remove_old now snapA mainId CUTOFF_HOURS none).1
    ∧ (∀ q ∈ (remove_old now snapA mainId CUTOFF_HOURS none).2,
        q ∈ (mainModel sp getTrack getArtist strpt today now mainId dnbId
          snapA snapB dnbSnapA dnbSnapB db0 items).events) := by
  have hev : (mainModel sp getTrack getArtist strpt today now mainId dnbId
        snapA snapB dnbSnapA dnbSnapB db0 items).events
      = Req.readPlaylist mainId :: (remove_old now snapA mainId CUTOFF_HOURS none).2
          ++ (if (remove_old now snapA mainId CUTOFF_HOURS none).1 = 0 then []
              else [Req.readPlaylist mainId])
          ++ (add_new
              ((processAll sp getTrack getArtist today db0
                  (parse_records strpt now items)).2.1.filter
                (fun u => ¬ ((if (remove_old now snapA mainId CUTOFF_HOURS none).1 = 0
                    then snapA else snapB).map (fun s => s.uri)).contains u))
              mainId).2 := by
    cases dnbId with
    | none => simp only [mainModel]
    | some d => simp only [mainModel, h, List.isEmpty_nil, if_true]
  have hrest : (mainModel sp getTrack getArtist strpt today now mainId dnbId
        snapA snapB dnbSnapA dnbSnapB db0 items).dnbAdded = 0
      ∧ (mainModel sp getTrack getArtist strpt today now mainId dnbId
        snapA snapB dnbSnapA dnbSnapB db0 items).dnbRemoved = 0
      ∧ (mainModel sp getTrack getArtist strpt today now mainId dnbId
        snapA snapB dnbSnapA dnbSnapB db0 items).removed
        = (remove_old now snapA mainId CUTOFF_HOURS none).1 := by
    cases dnbId with
    | none => exact ⟨rfl, rfl, rfl⟩
    | some d =>
      refine ⟨?_, ?_, ?_⟩ <;>
        simp only [mainModel, h, List.isEmpty_nil, if_true]
  refine ⟨?_, hrest.1, hrest.2.1, hrest.2.2, ?_⟩
  · intro e he
    rw [hev] at he
    rcases List.mem_cons.mp he with h1 | h1
    · rw [h1]
      rfl
    · rcases List.mem_append.mp h1 with h2 | h2
      · rcases List.mem_append.mp h2 with h3 | h3
        · exact remove_old_playlist now snapA mainId CUTOFF_HOURS none e h3
        · by_cases hz : (remove_old now snapA mainId CUTOFF_HOURS none).1 = 0
          · rw [if_pos hz] at h3
            simp at h3
          · rw [if_neg hz] at h3
            rcases List.mem_singleton.mp h3 with h4
            rw [h4]
            rfl
      · exact add_new_playlist _ mainId e h2
  · intro q hq
    rw [hev]
    exact List.mem_cons_of_mem _
      (List.mem_append_left _ (List.mem_append_left _ hq))

theorem main_skips_dnb_when_none_classified_witness :
    (processAll (fun _ _ => none) (fun _ => []) (fun _ => []) "d".toList emptyDb
        (parse_records (fun _ => none) 0 [])).2.2.1 = []
    ∧ (mainModel (fun _ _ => none) (fun _ => []) (fun _ => [])
        (fun _ => none) "d".toList 0 "m".toList (some "d2".toList)
        [⟨0, -400000000, "old".toList⟩] [] [] [] emptyDb []).dnbRemoved = 0
    ∧ (mainModel (fun _ _ => none) (fun _ => []) (fun _ => [])
        (fun _ => none) "d".toList 0 "m".toList (some "d2".toList)
        [⟨0, -400000000, "old".toList⟩] [] [] [] emptyDb []).removed
      = (remove_old 0 [⟨0, -400000000, "old".toList⟩] "m".toList
          CUTOFF_HOURS none).1 :=
  ⟨by decide,
   (main_skips_dnb_when_none_classified (fun _ _ => none) (fun _ => [])
      (fun _ => []) (fun _ => none) "d".toList 0 "m".toList
      (some "d2".toList) [⟨0, -400000000, "old".toList⟩] [] [] [] emptyDb []
      (by decide)).2.2.1,
   (main_skips_dnb_when_none_classified (fun _ _ => none) (fun _ => [])
      (fun _ => []) (fun _ => none) "d".toList 0 "m".toList
      (some "d2".toList) [⟨0, -400000000, "old".toList⟩] [] [] [] emptyDb []
      (by decide)).2.2.2.1⟩

theorem clean_artist_amended_witness :
    hasInf "GandG".toList "Simon and Garfunkel".toList = false
    ∧ (clean_artist "Simon and Garfunkel".toList
        = spec_clean_artist "Simon and Garfunkel".toList
      ∧ (andSub false "Simon and Garfunkel".toList).Sublist
          "Simon and Garfunkel".toList) :=
  ⟨by decide, clean_artist_amended _ (by decide)⟩
